import Mathlib

/-!
Verification of the node-tdd user registration and activation service.

The embedding follows the repository sources:
* the pagination middleware (src/unnamed/part_000),
* the email service `sendAccountActivation` and the error handler
  (src/unnamed/part_001),
and, for the parts of the repository whose implementation files are not
present under src/ (the user service, the validation chains of the user
router, and the locale tables), definitions modelled from the spec, each
marked `Modelled from the spec:` in its doc comment.
-/

namespace NodeTdd

/-! ## Pagination middleware (src/unnamed/part_000)

`Number.parseInt` of a query parameter is embedded as an `Option Int`:
`none` stands for the `NaN` produced by a missing or non-numeric
parameter, `some n` for a successfully parsed integer. -/

structure Pagination where
  page : Int
  size : Int
deriving Repr, DecidableEq

def pagination (pageAsNumber : Option Int) (sizeAsNumber : Option Int) : Pagination :=
  let page0 : Int := match pageAsNumber with | none => 0 | some n => n
  let size0 : Int := match sizeAsNumber with | none => 10 | some n => n
  let page : Int := if page0 < 0 then 0 else page0
  let size : Int := if size0 ≤ 0 ∨ size0 > 10 then 10 else size0
  { page := page, size := size }

/-! ## Data model

`Modelled from the spec:` the `User` model file (src/user/User.js) is not
under src/; the Account record follows §3 of the spec: username, email,
password hash, `inactive` flag and nullable activation token. -/

structure Account where
  username : String
  email : String
  password : String
  inactive : Bool
  activationToken : Option String
deriving Repr, DecidableEq

/-- The persistent store is the list of account rows, in insertion order. -/
abbrev Store := List Account

/-- Modelled from the spec: the account-store lookup used by the
uniqueness check (`findOne` by email). -/
def findByEmail (st : Store) (e : String) : Option Account :=
  st.find? (fun a => a.email == e)

/-- Modelled from the spec: the account-store delete used by the
compensating action; removes the first row equal to the given account. -/
def deleteFirst (st : Store) (a : Account) : Store :=
  match st with
  | [] => []
  | b :: rest => if b = a then rest else b :: deleteFirst rest a

/-! ## Validation engine

`Modelled from the spec:` the user-router validation chains
(src/user/UserRouter.js, express-validator) are not under src/.  The
engine follows §4.1: per-field ordered rule lists, at most one error per
field, and an async uniqueness read against the store for the email. -/

/-- A registration candidate as submitted in the request body; `none`
stands for a `null`/missing JSON field.  The caller may also submit an
`inactive` value, which registration ignores. -/
structure Candidate where
  username : Option String
  email : Option String
  password : Option String
  inactive : Option Bool
deriving Repr, DecidableEq

inductive Field
  | username
  | email
  | password
deriving Repr, DecidableEq

inductive ErrorKey
  | USERNAME_NULL
  | USERNAME_SIZE
  | EMAIL_NULL
  | EMAIL_INVALID
  | EMAIL_INUSE
  | PASSWORD_NULL
  | PASSWORD_SIZE
  | PASSWORD_PATTERN
deriving Repr, DecidableEq

/-- Split a character list at every occurrence of the separator. -/
def splitOnChar (c : Char) : List Char → List (List Char)
  | [] => [[]]
  | a :: rest =>
      match splitOnChar c rest with
      | [] => if a = c then [[], []] else [[a]]
      | g :: gs => if a = c then [] :: g :: gs else (a :: g) :: gs

/-- Modelled from the spec: valid email syntax (one `@`, a nonempty local
part, a domain with at least two nonempty dot-separated labels), matching
the accepted/rejected examples of the test table. -/
def isValidEmail (s : String) : Bool :=
  match splitOnChar (Char.ofNat 64) s.data with
  | [l, d] =>
      let labels := splitOnChar (Char.ofNat 46) d
      (!l.isEmpty) && decide (labels.length ≥ 2)
        && labels.all (fun seg => !seg.isEmpty)
  | _ => false

/-- Modelled from the spec: username is required and 4 to 32 characters. -/
def validateUsername (u : Option String) : Option ErrorKey :=
  match u with
  | none => some .USERNAME_NULL
  | some s =>
      if s.data.isEmpty then some .USERNAME_NULL
      else if s.length < 4 ∨ s.length > 32 then some .USERNAME_SIZE
      else none

/-- Modelled from the spec: email is required, must have valid syntax and
must be unique against existing accounts (one read of the store). -/
def validateEmail (st : Store) (e : Option String) : Option ErrorKey :=
  match e with
  | none => some .EMAIL_NULL
  | some s =>
      if s.data.isEmpty then some .EMAIL_NULL
      else if ¬ isValidEmail s then some .EMAIL_INVALID
      else if (findByEmail st s).isSome then some .EMAIL_INUSE
      else none

/-- Modelled from the spec: password is required, at least 6 characters,
with at least one lowercase letter, one uppercase letter and one digit. -/
def validatePassword (p : Option String) : Option ErrorKey :=
  match p with
  | none => some .PASSWORD_NULL
  | some s =>
      if s.data.isEmpty then some .PASSWORD_NULL
      else if s.length < 6 then some .PASSWORD_SIZE
      else if ¬ (s.data.any Char.isLower ∧ s.data.any Char.isUpper
          ∧ s.data.any Char.isDigit) then
        some .PASSWORD_PATTERN
      else none

/-- Modelled from the spec: the engine runs every field's rules and
reports the violating fields together, in the fixed order
username, email, password. -/
def validate (st : Store) (c : Candidate) : List (Field × ErrorKey) :=
  (match validateUsername c.username with
    | some k => [(Field.username, k)] | none => [])
  ++ (match validateEmail st c.email with
    | some k => [(Field.email, k)] | none => [])
  ++ (match validatePassword c.password with
    | some k => [(Field.password, k)] | none => [])

/-- The verdict of a single field, used to state ordering properties. -/
def fieldError (st : Store) (c : Candidate) : Field → Option ErrorKey
  | .username => validateUsername c.username
  | .email => validateEmail st c.email
  | .password => validatePassword c.password

/-! ## Email service (src/unnamed/part_001, `sendAccountActivation`) -/

structure Mail where
  fromAddr : String
  toAddr : String
  subject : String
  html : String
deriving Repr, DecidableEq

/-- `sendAccountActivation` from src/unnamed/part_001: builds the
activation message handed to the SMTP transporter. -/
def sendAccountActivation (email : String) (token : String) : Mail :=
  { fromAddr := "My App<info@myapp.com>"
    toAddr := email
    subject := "Account Activation"
    html := "
    <div>
    <b>Please click link down below to activate your account
    </b>
    </div>
    <div>
    <a href=\"http://localhost:8080/#/login?token=" ++ token ++ "\">Activate</a>
</div>
   " }

/-! ## Registration orchestrator

`Modelled from the spec:` the user service (src/user/UserService.js) is
not under src/.  `register` follows §4.4: validate, hash the password,
generate a token, persist with `inactive = true`, dispatch the activation
mail, and on dispatch failure delete the just-created account and fail
with `EmailFailure`.  The credential hasher and the generated token are
passed as explicit dependencies (§9); `emailOk` is the outcome of the
out-of-process email dispatch. -/

inductive RegisterResult
  | confirmation
  | validationFailure (errors : List (Field × ErrorKey))
  | emailFailure
deriving Repr, DecidableEq

/-- Modelled from the spec: the created account row, with `inactive`
forced to `true` regardless of any caller-supplied value and the
generated token attached. -/
def mkAccount (hash : String → String) (token : String)
    (u e p : String) : Account :=
  { username := u, email := e, password := hash p
    inactive := true, activationToken := some token }

/-- Modelled from the spec: the registration orchestrator.  Returns the
result, the store after the call, and the list of dispatched activation
mails (empty when validation fails, exactly one otherwise). -/
def register (hash : String → String) (token : String) (emailOk : Bool)
    (st : Store) (c : Candidate) : RegisterResult × Store × List Mail :=
  let errors := validate st c
  if errors = [] then
    match c.username, c.email, c.password with
    | some u, some e, some p =>
        let acct := mkAccount hash token u e p
        let st1 := st ++ [acct]
        let mail := sendAccountActivation e token
        if emailOk then
          (.confirmation, st1, [mail])
        else
          (.emailFailure, deleteFirst st1 acct, [mail])
    | _, _, _ => (.validationFailure errors, st, [])
  else
    (.validationFailure errors, st, [])

/-! ## Activation state machine

`Modelled from the spec:` `activate` (src/user/UserService.js) is not
under src/.  It follows §4.5: look up an account whose activation token
equals the submitted token and which is still inactive; if none, fail
with `InvalidTokenFailure` without mutation; otherwise flip `inactive`
to false and clear the token. -/

inductive ActivateResult
  | success
  | invalidToken
deriving Repr, DecidableEq

/-- Is this account pending with the given token? -/
def isPendingWith (token : String) (a : Account) : Bool :=
  a.activationToken == some token && a.inactive

/-- The activation transition on one account row. -/
def activateAccount (a : Account) : Account :=
  { a with inactive := false, activationToken := none }

/-- Replace the first row satisfying `p` by `f` of it. -/
def updateFirst (st : Store) (p : Account → Bool) (f : Account → Account) : Store :=
  match st with
  | [] => []
  | a :: rest => if p a then f a :: rest else a :: updateFirst rest p f

/-- Modelled from the spec: the activation state machine. -/
def activate (st : Store) (token : String) : ActivateResult × Store :=
  match st.find? (isPendingWith token) with
  | none => (.invalidToken, st)
  | some _ => (.success, updateFirst st (isPendingWith token) activateAccount)

/-! ## Failure taxonomy and localized messages

`Modelled from the spec:` the exception classes and the locale tables
(src/error, src/../locales) are not under src/.  Statuses and message
keys follow §6 and §7 of the spec; the localized strings are the ones
the repository's test suite pins for the `en` and `il` locales. -/

inductive Failure
  | validation (errors : List (Field × ErrorKey))
  | email
  | invalidToken
deriving Repr, DecidableEq

/-- Modelled from the spec: HTTP status carried by each failure. -/
def failureStatus : Failure → Nat
  | .validation _ => 400
  | .email => 502
  | .invalidToken => 400

/-- Modelled from the spec: the message key carried by each failure. -/
def failureMessageKey : Failure → String
  | .validation _ => "validation_failure"
  | .email => "email_failure"
  | .invalidToken => "account_activation_failure"

/-- Modelled from the spec: the message key attached to each per-field
validation error. -/
def errorKeyMsg : ErrorKey → String
  | .USERNAME_NULL => "username_null"
  | .USERNAME_SIZE => "username_size"
  | .EMAIL_NULL => "email_null"
  | .EMAIL_INVALID => "email_invalid"
  | .EMAIL_INUSE => "email_inuse"
  | .PASSWORD_NULL => "password_null"
  | .PASSWORD_SIZE => "password_size"
  | .PASSWORD_PATTERN => "password_pattern"

/-- Modelled from the spec: the English locale table. -/
def translateEn : String → String
  | "user_create_success" => "User created"
  | "username_null" => "Username cannot be null"
  | "username_size" => "Must have min 4 and max 32 characters"
  | "email_null" => "Email cannot be null"
  | "email_invalid" => "Email is not valid"
  | "email_inuse" => "email in use"
  | "password_null" => "Password cannot be null"
  | "password_size" => "Password must be at least 6 characters"
  | "password_pattern" => "Password must have at least 1 uppercase, 1 lowercase and 1 number"
  | "email_failure" => "Email failure"
  | "validation_failure" => "Validation Failure"
  | "account_activation_success" => "account is activated"
  | "account_activation_failure" => "this account is either active or the token is invalid"
  | k => k

/-- Modelled from the spec: the Hebrew (`il`) locale table. -/
def translateIl : String → String
  | "user_create_success" => "המשתמש נוצר בהצלחה"
  | "username_null" => "שם המשתמש לא יכול להיות ריק"
  | "username_size" => "חייב להיות בגודל של 4 תווים לפחות ו32 תווים לכל היותר"
  | "email_null" => "מייל לא יכול להיות ריק"
  | "email_invalid" => "מייל לא חוקי"
  | "email_inuse" => "המייל כבר נמצא בשימוש"
  | "password_null" => "סיסמה לא יכולה להיות ריקה"
  | "password_size" => "הסיסמה חייבת להיות באורך 6 תווים לפחות"
  | "password_pattern" => "הסיסמה חייבת להכיל אות קטנה, אות גדולה, ומספר אחד לפחות"
  | "email_failure" => "שליחת המייל נכשלה"
  | "validation_failure" => "ולידציה נכשלה"
  | "account_activation_success" => "החשבון הופעל בהצלחה"
  | "account_activation_failure" => "החשבון הזה פעיל או שהטוקן אינו תקין"
  | k => k

/-- Modelled from the spec: locale selection with fallback to the
default (`en`) locale for any unrecognized locale. -/
def translate (locale : String) (key : String) : String :=
  if locale = "il" then translateIl key else translateEn key

/-! ## Error handler (src/unnamed/part_001, `errorHandler`)

The express error middleware receives the thrown error (status, message
key, optional per-field errors), the request (its `originalUrl` and its
locale-resolving `t` function) and the current clock reading, and sends
the uniform envelope. -/

/-- The `err` argument of the error handler: `status`, `message` and
optionally `errors`, as set by the failure that was thrown. -/
structure ErrInput where
  status : Nat
  message : String
  errors : Option (List (Field × String))
deriving Repr, DecidableEq

/-- The wire error envelope: `path`, `timestamp`, `message` and, when the
thrown error carried per-field errors, `validationErrors`. -/
structure Envelope where
  path : String
  timestamp : Nat
  message : String
  validationErrors : Option (List (Field × String))
deriving Repr, DecidableEq

/-- `errorHandler` from src/unnamed/part_001: translates the message and
each per-field error with the request's `t`, stamps the current time and
echoes `req.originalUrl`. -/
def errorHandler (err : ErrInput) (originalUrl : String) (now : Nat)
    (t : String → String) : Envelope :=
  let validationErrors :=
    match err.errors with
    | none => none
    | some es => some (es.map (fun fm => (fm.1, t fm.2)))
  { path := originalUrl
    timestamp := now
    message := t err.message
    validationErrors := validationErrors }

/-- Modelled from the spec: how each failure is thrown to the error
handler: its status, its message key, and per-field errors (with their
message keys) exactly when it is a validation failure. -/
def failureToErrInput : Failure → ErrInput
  | .validation errors =>
      { status := 400, message := "validation_failure"
        errors := some (errors.map (fun fk => (fk.1, errorKeyMsg fk.2))) }
  | f => { status := failureStatus f, message := failureMessageKey f, errors := none }

/-! ## Concrete instances used to exercise the theorems -/

/-- The valid registration candidate used throughout the test suite. -/
def validUser : Candidate :=
  { username := some "user1", email := some "user1@gmail.com"
    password := some "P4ssword", inactive := none }

/-- A concrete credential hasher in bcrypt output shape; its output is
never the plaintext (the output is strictly longer). -/
def hasherW : String → String := fun p => "$2b$10$" ++ p

/-- The store after one successful registration of `validUser`. -/
def storeW : Store := (register hasherW "tok1" true [] validUser).2.1

/-- A concrete account pending activation with token `tok1234`. -/
def pendingAccount : Account :=
  { username := "user1", email := "user1@gmail.com"
    password := hasherW "P4ssword", inactive := true
    activationToken := some "tok1234" }

/-- A candidate with a null username and an empty password. -/
def nullUserEmptyPw : Candidate :=
  ⟨none, some "user1@gmail.com", some "", none⟩

/-- A candidate with a null username and a syntactically invalid email. -/
def nullUserBadEmail : Candidate :=
  ⟨none, some "mail.com", some "P4ssword", none⟩

/-- A concrete thrown validation error with two failing fields. -/
def errInputW : ErrInput :=
  ⟨400, "validation_failure",
    some [(Field.username, "username_null"), (Field.email, "email_invalid")]⟩

/-- The valid candidate with a caller-supplied `inactive: false`. -/
def inactiveFalseUser : Candidate :=
  ⟨some "user1", some "user1@gmail.com", some "P4ssword", some false⟩

/-! ## Basic lemmas about the embedding -/

theorem validate_eq_nil_iff (st : Store) (c : Candidate) :
    validate st c = [] ↔
      validateUsername c.username = none ∧ validateEmail st c.email = none
        ∧ validatePassword c.password = none := by
  unfold validate
  cases validateUsername c.username <;> cases validateEmail st c.email <;>
    cases validatePassword c.password <;> simp

theorem validateUsername_none_elim {u : Option String}
    (h : validateUsername u = none) : ∃ s, u = some s := by
  cases u with
  | none => simp [validateUsername] at h
  | some s => exact ⟨s, rfl⟩

theorem validatePassword_none_elim {p : Option String}
    (h : validatePassword p = none) : ∃ s, p = some s := by
  cases p with
  | none => simp [validatePassword] at h
  | some s => exact ⟨s, rfl⟩

theorem validateEmail_none_elim {st : Store} {e : Option String}
    (h : validateEmail st e = none) :
    ∃ s, e = some s ∧ s.data.isEmpty = false ∧ isValidEmail s = true
      ∧ findByEmail st s = none := by
  cases e with
  | none => simp [validateEmail] at h
  | some s =>
    simp only [validateEmail] at h
    split_ifs at h with h1 h2 h3
    try simp at h
    refine ⟨s, rfl, by simpa using h1, by simpa using h2, ?_⟩
    cases hf : findByEmail st s with
    | none => rfl
    | some a => rw [hf] at h3; simp at h3

theorem validateEmail_inuse {st : Store} {s : String}
    (h1 : s.data.isEmpty = false) (h2 : isValidEmail s = true)
    (h3 : (findByEmail st s).isSome = true) :
    validateEmail st (some s) = some .EMAIL_INUSE := by
  simp [validateEmail, h1, h2, h3]

theorem register_success_eq (hash : String → String) (token : String)
    (st : Store) (c : Candidate) (u e p : String)
    (hu : c.username = some u) (he : c.email = some e) (hp : c.password = some p)
    (hv : validate st c = []) :
    register hash token true st c =
      (.confirmation, st ++ [mkAccount hash token u e p],
        [sendAccountActivation e token]) := by
  simp [register, hu, he, hp, hv]

theorem register_emailfail_eq (hash : String → String) (token : String)
    (st : Store) (c : Candidate) (u e p : String)
    (hu : c.username = some u) (he : c.email = some e) (hp : c.password = some p)
    (hv : validate st c = []) :
    register hash token false st c =
      (.emailFailure,
        deleteFirst (st ++ [mkAccount hash token u e p]) (mkAccount hash token u e p),
        [sendAccountActivation e token]) := by
  simp [register, hu, he, hp, hv]

theorem register_invalid_eq (hash : String → String) (token : String)
    (emailOk : Bool) (st : Store) (c : Candidate)
    (hv : validate st c ≠ []) :
    register hash token emailOk st c = (.validationFailure (validate st c), st, []) := by
  simp [register, hv]

theorem deleteFirst_append_singleton {st : Store} {a : Account} (h : a ∉ st) :
    deleteFirst (st ++ [a]) a = st := by
  induction st with
  | nil => simp [deleteFirst]
  | cons b rest ih =>
    have hba : ¬ (b = a) := by
      intro hba
      exact h (by rw [← hba]; exact List.mem_cons_self b rest)
    show (if b = a then rest ++ [a] else b :: deleteFirst (rest ++ [a]) a) = b :: rest
    rw [if_neg hba, ih (fun hm => h (List.mem_cons_of_mem b hm))]

theorem not_mem_of_findByEmail_none {st : Store} {e : String} {a : Account}
    (h : findByEmail st e = none) (ha : a.email = e) : a ∉ st := by
  intro hm
  have h2 := List.find?_eq_none.mp h a hm
  simp [ha] at h2

theorem findByEmail_append_singleton {st : Store} {e : String} (a : Account)
    (hst : findByEmail st e = none) (ha : a.email = e) :
    findByEmail (st ++ [a]) e = some a := by
  unfold findByEmail at hst ⊢
  rw [List.find?_append, hst, Option.none_or]
  exact List.find?_cons_of_pos _ (by simp [ha])

theorem countP_email_eq_zero {st : Store} {e : String}
    (h : findByEmail st e = none) :
    st.countP (fun a => a.email == e) = 0 :=
  List.countP_eq_zero.mpr (List.find?_eq_none.mp h)

theorem findByEmail_isSome_of_countP {st : Store} {e : String}
    (h : st.countP (fun a => a.email == e) = 1) :
    (findByEmail st e).isSome = true := by
  rw [findByEmail, List.find?_isSome]
  by_contra hn
  push_neg at hn
  have : st.countP (fun a => a.email == e) = 0 :=
    List.countP_eq_zero.mpr (by intro a ha; simp [hn a ha])
  omega

theorem updateFirst_append {p : Account → Bool} {f : Account → Account}
    (pre : Store) (a : Account) (post : Store)
    (hpre : ∀ b ∈ pre, p b = false) (ha : p a = true) :
    updateFirst (pre ++ a :: post) p f = pre ++ f a :: post := by
  induction pre with
  | nil => simp [updateFirst, ha]
  | cons b rest ih =>
    have hb : p b = false := hpre b (List.mem_cons_self b rest)
    show (if p b then f b :: (rest ++ a :: post)
        else b :: updateFirst (rest ++ a :: post) p f)
      = b :: (rest ++ f a :: post)
    rw [if_neg (by simp [hb]), ih (fun x hx => hpre x (List.mem_cons_of_mem b hx))]

theorem find?_decomp {p : Account → Bool} (pre : Store) (a : Account) (post : Store)
    (hpre : ∀ b ∈ pre, p b = false) (ha : p a = true) :
    (pre ++ a :: post).find? p = some a := by
  rw [List.find?_append,
    List.find?_eq_none.mpr (by intro x hx; simp [hpre x hx]), Option.none_or]
  exact List.find?_cons_of_pos _ ha

theorem isPendingWith_activateAccount (token : String) (a : Account) :
    isPendingWith token (activateAccount a) = false := rfl

theorem activate_no_pending {st : Store} {token : String}
    (h : ∀ b ∈ st, isPendingWith token b = false) :
    activate st token = (.invalidToken, st) := by
  unfold activate
  rw [List.find?_eq_none.mpr (by intro x hx; simp [h x hx])]

theorem validate_lookup (st : Store) (c : Candidate) (f : Field) :
    (validate st c).lookup f = fieldError st c f := by
  cases hu : validateUsername c.username <;>
    cases he : validateEmail st c.email <;>
      cases hp : validatePassword c.password <;>
        cases f <;>
          simp [validate, fieldError, hu, he, hp, List.lookup] <;>
            rfl

/-! ## Claims -/

/-- C10: after the pagination middleware runs, `req.pagination` satisfies
`0 ≤ page` and `1 ≤ size ≤ 10`; a missing or non-numeric page yields
page 0, a negative page is clamped to 0, a missing, non-numeric,
non-positive or greater-than-10 size yields size 10, and in-range values
pass through unchanged. -/
theorem pagination_bounds :
    (∀ p s, 0 ≤ (pagination p s).page
      ∧ 1 ≤ (pagination p s).size ∧ (pagination p s).size ≤ 10)
    ∧ (∀ s, (pagination none s).page = 0)
    ∧ (∀ p, (pagination p none).size = 10)
    ∧ (∀ pv s, (pagination (some pv) s).page = if pv < 0 then 0 else pv)
    ∧ (∀ p sv, (pagination p (some sv)).size = if sv ≤ 0 ∨ sv > 10 then 10 else sv) := by
  refine ⟨?_, fun s => rfl, fun p => rfl, fun pv s => rfl, fun p sv => rfl⟩
  intro p s
  cases p <;> cases s <;> simp [pagination] <;> split_ifs <;> omega

/-- C5: a null/empty required field yields the corresponding `_NULL`
error key for exactly that field in the one validation result, and every
field whose own rules pass reports no error. -/
theorem validate_null_fields (st : Store) (c : Candidate) :
    ((c.username = none ∨ c.username = some "") →
      (validate st c).lookup Field.username = some .USERNAME_NULL)
    ∧ ((c.email = none ∨ c.email = some "") →
      (validate st c).lookup Field.email = some .EMAIL_NULL)
    ∧ ((c.password = none ∨ c.password = some "") →
      (validate st c).lookup Field.password = some .PASSWORD_NULL)
    ∧ (validateUsername c.username = none →
      (validate st c).lookup Field.username = none)
    ∧ (validateEmail st c.email = none →
      (validate st c).lookup Field.email = none)
    ∧ (validatePassword c.password = none →
      (validate st c).lookup Field.password = none) := by
  refine ⟨?_, ?_, ?_, ?_, ?_, ?_⟩ <;> rw [validate_lookup] <;> intro h
  · rcases h with h | h <;> simp [fieldError, h, validateUsername]
  · rcases h with h | h <;> simp [fieldError, h, validateEmail]
  · rcases h with h | h <;> simp [fieldError, h, validatePassword]
  · simpa [fieldError] using h
  · simpa [fieldError] using h
  · simpa [fieldError] using h

/-- C5 witness: null username and empty password are reported as `_NULL`
for exactly those fields while the valid email reports no error. -/
theorem validate_null_fields_witness :
    (validate [] nullUserEmptyPw).lookup Field.username
      = some ErrorKey.USERNAME_NULL
    ∧ (validate [] nullUserEmptyPw).lookup Field.password
      = some ErrorKey.PASSWORD_NULL
    ∧ (validate [] nullUserEmptyPw).lookup Field.email = none := by
  have h := validate_null_fields [] nullUserEmptyPw
  exact ⟨h.1 (Or.inl rfl), h.2.2.1 (Or.inr rfl), h.2.2.2.2.1 (by decide)⟩

/-- C6: the fields of a validation result appear in the fixed order
username, email, password, restricted to the failing fields, and the
error handler preserves that field order in the `validationErrors`
member of the envelope. -/
theorem validation_error_order (st : Store) (c : Candidate) :
    (validate st c).map Prod.fst
      = [Field.username, Field.email, Field.password].filter
          (fun f => (fieldError st c f).isSome)
    ∧ (∀ (err : ErrInput) (url : String) (now : Nat) (t : String → String)
        (errs : List (Field × String)), err.errors = some errs →
        ∃ ves, (errorHandler err url now t).validationErrors = some ves
          ∧ ves.map Prod.fst = errs.map Prod.fst) := by
  constructor
  · cases hu : validateUsername c.username <;>
      cases he : validateEmail st c.email <;>
        cases hp : validatePassword c.password <;>
          simp [validate, fieldError, hu, he, hp]
  · intro err url now t errs h
    refine ⟨errs.map (fun fm => (fm.1, t fm.2)), by simp [errorHandler, h], ?_⟩
    simp [List.map_map, Function.comp]

/-- C6 witness: with username and email failing, the result lists the
fields in the order username, email, and the error handler keeps that
order in the envelope. -/
theorem validation_error_order_witness :
    (validate [] nullUserBadEmail).map Prod.fst
      = [Field.username, Field.email, Field.password].filter
          (fun f => (fieldError [] nullUserBadEmail f).isSome)
    ∧ ∃ ves,
        (errorHandler errInputW "/api/1.0/users" 17
          (translate "en")).validationErrors = some ves
        ∧ ves.map Prod.fst
          = ([(Field.username, "username_null"),
              (Field.email, "email_invalid")]).map Prod.fst :=
  ⟨(validation_error_order [] nullUserBadEmail).1,
   (validation_error_order [] nullUserBadEmail).2 errInputW
      "/api/1.0/users" 17 (translate "en") _ rfl⟩

/-- C7: every failure envelope echoes the requested path (including the
submitted token of an activation call), stamps the clock reading taken
when the response is built, carries the localized failure message, and
has a `validationErrors` member exactly when the failure is a validation
failure. -/
theorem errorHandler_envelope (f : Failure) (url : String) (now : Nat)
    (locale : String) :
    (errorHandler (failureToErrInput f) url now (translate locale)).path = url
    ∧ (errorHandler (failureToErrInput f) url now (translate locale)).timestamp = now
    ∧ (errorHandler (failureToErrInput f) url now (translate locale)).message
        = translate locale (failureMessageKey f)
    ∧ ((errorHandler (failureToErrInput f) url now
          (translate locale)).validationErrors ≠ none
        ↔ ∃ errs, f = .validation errs)
    ∧ (∀ token, (errorHandler (failureToErrInput f)
          ("/api/1.0/users/token/" ++ token) now (translate locale)).path
        = "/api/1.0/users/token/" ++ token) := by
  refine ⟨rfl, rfl, ?_, ?_, fun token => rfl⟩
  · cases f <;> rfl
  · cases f <;> simp [errorHandler, failureToErrInput]

/-- Shared shape of a successful registration: the exact result triple,
plus the store lookups before and after. -/
theorem register_success_shape (hash : String → String) (token : String)
    (st : Store) (c : Candidate) (u e p : String)
    (hu : c.username = some u) (he : c.email = some e) (hp : c.password = some p)
    (hv : validate st c = []) :
    register hash token true st c
      = (.confirmation, st ++ [mkAccount hash token u e p],
          [sendAccountActivation e token])
    ∧ findByEmail st e = none
    ∧ findByEmail (st ++ [mkAccount hash token u e p]) e
        = some (mkAccount hash token u e p) := by
  obtain ⟨hU, hE, hP⟩ := (validate_eq_nil_iff st c).mp hv
  obtain ⟨e2, he2, hne, hvalid, hfind⟩ := validateEmail_none_elim hE
  rw [he] at he2
  injection he2 with he2
  subst he2
  exact ⟨register_success_eq hash token st c u e p hu he hp hv, hfind,
    findByEmail_append_singleton _ hfind rfl⟩

/-- C1: when the activation-email dispatch fails after a valid
registration candidate was persisted, register answers `EmailFailure`
(HTTP 502, localized message "Email failure") and rolls the created
account back: the post-call store equals the pre-call store and a lookup
by the submitted email returns none. -/
theorem register_email_failure_rolls_back (hash : String → String) (token : String)
    (st : Store) (c : Candidate) (e : String)
    (he : c.email = some e) (hv : validate st c = []) :
    (register hash token false st c).1 = .emailFailure
    ∧ (register hash token false st c).2.1 = st
    ∧ findByEmail (register hash token false st c).2.1 e = none
    ∧ failureStatus .email = 502
    ∧ (∀ url now,
        (errorHandler (failureToErrInput .email) url now (translate "en")).message
          = "Email failure") := by
  obtain ⟨hU, hE, hP⟩ := (validate_eq_nil_iff st c).mp hv
  obtain ⟨u, hu⟩ := validateUsername_none_elim hU
  obtain ⟨e2, he2, hne, hvalid, hfind⟩ := validateEmail_none_elim hE
  obtain ⟨p, hp⟩ := validatePassword_none_elim hP
  rw [he] at he2
  injection he2 with he2
  subst he2
  have hreg := register_emailfail_eq hash token st c u e p hu he hp hv
  have hnotmem : mkAccount hash token u e p ∉ st :=
    not_mem_of_findByEmail_none hfind rfl
  have hdel := deleteFirst_append_singleton hnotmem
  refine ⟨by rw [hreg], ?_, ?_, rfl, fun url now => rfl⟩
  · rw [hreg]; exact hdel
  · rw [hreg]
    show findByEmail (deleteFirst (st ++ [mkAccount hash token u e p])
      (mkAccount hash token u e p)) e = none
    rw [hdel]
    exact hfind

/-- C1 witness: the valid test candidate with a failing dispatch against
the empty store. -/
theorem register_email_failure_rolls_back_witness :
    (register hasherW "tok1" false [] validUser).1 = RegisterResult.emailFailure
    ∧ (register hasherW "tok1" false [] validUser).2.1 = []
    ∧ findByEmail (register hasherW "tok1" false [] validUser).2.1
        "user1@gmail.com" = none
    ∧ failureStatus .email = 502
    ∧ (errorHandler (failureToErrInput .email) "/api/1.0/users" 5
        (translate "en")).message = "Email failure" := by
  have h := register_email_failure_rolls_back hasherW "tok1" [] validUser
    "user1@gmail.com" rfl (by decide)
  exact ⟨h.1, h.2.1, h.2.2.1, h.2.2.2.1, h.2.2.2.2 "/api/1.0/users" 5⟩

/-- C4: a successful registration persists the account with
`inactive = true`, and the caller-supplied `inactive` value is ignored:
register is insensitive to it. -/
theorem register_forces_inactive (hash : String → String) (token : String)
    (st : Store) (c : Candidate) (u e p : String)
    (hu : c.username = some u) (he : c.email = some e) (hp : c.password = some p)
    (hv : validate st c = []) :
    (register hash token true st c).1 = .confirmation
    ∧ findByEmail (register hash token true st c).2.1 e
        = some (mkAccount hash token u e p)
    ∧ (mkAccount hash token u e p).inactive = true
    ∧ (∀ b, register hash token true st { c with inactive := b }
        = register hash token true st c) := by
  obtain ⟨hreg, hfind, happ⟩ := register_success_shape hash token st c u e p hu he hp hv
  refine ⟨by rw [hreg], ?_, rfl, fun b => rfl⟩
  rw [hreg]
  exact happ

/-- C4 witness: registering the valid candidate that also submits
`inactive: false` still persists an inactive account. -/
theorem register_forces_inactive_witness :
    (register hasherW "tok1" true [] inactiveFalseUser).1
      = RegisterResult.confirmation
    ∧ findByEmail (register hasherW "tok1" true [] inactiveFalseUser).2.1
        "user1@gmail.com"
      = some (mkAccount hasherW "tok1" "user1" "user1@gmail.com" "P4ssword")
    ∧ (mkAccount hasherW "tok1" "user1" "user1@gmail.com" "P4ssword").inactive
      = true := by
  have h := register_forces_inactive hasherW "tok1" [] inactiveFalseUser
    "user1" "user1@gmail.com" "P4ssword" rfl rfl rfl (by decide)
  exact ⟨h.1, h.2.1, h.2.2.1⟩

/-- C8: a successful registration dispatches exactly one activation
mail, addressed to the candidate's email, whose body contains the
generated token, and the persisted account carries that token, which is
non-empty. -/
theorem register_sends_activation_email (hash : String → String) (token : String)
    (st : Store) (c : Candidate) (u e p : String)
    (hu : c.username = some u) (he : c.email = some e) (hp : c.password = some p)
    (hv : validate st c = []) (htok : token ≠ "") :
    (register hash token true st c).2.2 = [sendAccountActivation e token]
    ∧ (sendAccountActivation e token).toAddr = e
    ∧ (∃ pre post, (sendAccountActivation e token).html = pre ++ token ++ post)
    ∧ findByEmail (register hash token true st c).2.1 e
        = some (mkAccount hash token u e p)
    ∧ (mkAccount hash token u e p).activationToken = some token
    ∧ token ≠ "" := by
  obtain ⟨hreg, hfind, happ⟩ := register_success_shape hash token st c u e p hu he hp hv
  refine ⟨by rw [hreg], rfl, ⟨_, _, rfl⟩, ?_, rfl, htok⟩
  rw [hreg]
  exact happ

/-- C8 witness: the valid test candidate with token `tok1`. -/
theorem register_sends_activation_email_witness :
    (register hasherW "tok1" true [] validUser).2.2
      = [sendAccountActivation "user1@gmail.com" "tok1"]
    ∧ (sendAccountActivation "user1@gmail.com" "tok1").toAddr = "user1@gmail.com"
    ∧ (∃ pre post,
        (sendAccountActivation "user1@gmail.com" "tok1").html
          = pre ++ "tok1" ++ post)
    ∧ findByEmail (register hasherW "tok1" true [] validUser).2.1 "user1@gmail.com"
        = some (mkAccount hasherW "tok1" "user1" "user1@gmail.com" "P4ssword")
    ∧ (mkAccount hasherW "tok1" "user1" "user1@gmail.com" "P4ssword").activationToken
        = some "tok1"
    ∧ "tok1" ≠ "" :=
  register_sends_activation_email hasherW "tok1" [] validUser
    "user1" "user1@gmail.com" "P4ssword" rfl rfl rfl (by decide) (by decide)

/-- C9: a successful registration stores the hasher's output as the
password field; as the hasher never returns its input, the persisted
password differs from the submitted plaintext. -/
theorem register_hashes_password (hash : String → String) (token : String)
    (st : Store) (c : Candidate) (u e p : String)
    (hu : c.username = some u) (he : c.email = some e) (hp : c.password = some p)
    (hv : validate st c = []) (hhash : ∀ q, hash q ≠ q) :
    findByEmail (register hash token true st c).2.1 e
      = some (mkAccount hash token u e p)
    ∧ (mkAccount hash token u e p).password = hash p
    ∧ (mkAccount hash token u e p).password ≠ p := by
  obtain ⟨hreg, hfind, happ⟩ := register_success_shape hash token st c u e p hu he hp hv
  exact ⟨by rw [hreg]; exact happ, rfl, hhash p⟩

/-- C9 witness: the concrete bcrypt-shaped hasher on the valid test
candidate; the stored password is the hash, not `P4ssword`. -/
theorem register_hashes_password_witness :
    findByEmail (register hasherW "tok1" true [] validUser).2.1 "user1@gmail.com"
      = some (mkAccount hasherW "tok1" "user1" "user1@gmail.com" "P4ssword")
    ∧ (mkAccount hasherW "tok1" "user1" "user1@gmail.com" "P4ssword").password
        = hasherW "P4ssword"
    ∧ (mkAccount hasherW "tok1" "user1" "user1@gmail.com" "P4ssword").password
        ≠ "P4ssword" := by
  have hne : ∀ q, hasherW q ≠ q := by
    intro q h
    have h2 := congrArg String.length h
    simp only [hasherW, String.length_append] at h2
    have h3 : ("$2b$10$" : String).length = 7 := rfl
    omega
  exact register_hashes_password hasherW "tok1" [] validUser
    "user1" "user1@gmail.com" "P4ssword" rfl rfl rfl (by decide) hne

/-- C2: activating the token of a pending account (the only holder of
that token) succeeds, flips `inactive` to false and clears the token;
the repeat call with the consumed token, and any call whose token
belongs to no pending account, answer `InvalidTokenFailure` and leave
the store unchanged. -/
theorem activate_lifecycle (token : String) :
    (∀ pre a post,
      isPendingWith token a = true →
      (∀ b ∈ pre, isPendingWith token b = false) →
      (∀ b ∈ post, isPendingWith token b = false) →
      activate (pre ++ a :: post) token
        = (.success, pre ++ activateAccount a :: post)
      ∧ (activateAccount a).inactive = false
      ∧ (activateAccount a).activationToken = none
      ∧ activate (pre ++ activateAccount a :: post) token
          = (.invalidToken, pre ++ activateAccount a :: post))
    ∧ (∀ st, (∀ b ∈ st, isPendingWith token b = false) →
        activate st token = (.invalidToken, st)) := by
  constructor
  · intro pre a post ha hpre hpost
    refine ⟨?_, rfl, rfl, ?_⟩
    · unfold activate
      rw [find?_decomp pre a post hpre ha]
      rw [updateFirst_append pre a post hpre ha]
    · apply activate_no_pending
      intro b hb
      rcases List.mem_append.mp hb with h1 | h2
      · exact hpre b h1
      · rcases List.mem_cons.mp h2 with h3 | h3
        · rw [h3]; exact isPendingWith_activateAccount token a
        · exact hpost b h3
  · intro st h
    exact activate_no_pending h

/-- C2 witness: a store holding one pending account with token
`tok1234`: activation succeeds and clears the token, the repeat call and
a call on a store with no pending holder fail without mutation. -/
theorem activate_lifecycle_witness :
    (activate ([] ++ pendingAccount :: []) "tok1234"
        = (.success, [] ++ activateAccount pendingAccount :: [])
      ∧ (activateAccount pendingAccount).inactive = false
      ∧ (activateAccount pendingAccount).activationToken = none
      ∧ activate ([] ++ activateAccount pendingAccount :: []) "tok1234"
          = (.invalidToken, [] ++ activateAccount pendingAccount :: []))
    ∧ activate [] "tok1234" = (.invalidToken, []) :=
  ⟨(activate_lifecycle "tok1234").1 [] pendingAccount [] (by decide)
      (fun b hb => absurd hb (List.not_mem_nil b))
      (fun b hb => absurd hb (List.not_mem_nil b)),
   (activate_lifecycle "tok1234").2 []
      (fun b hb => absurd hb (List.not_mem_nil b))⟩

/-- C3: if a registration succeeds for an email, a second registration
with the same email fails as a validation failure whose email error is
`EMAIL_INUSE` (localized "email in use"), persists nothing, and exactly
one account with that email exists after either call. -/
theorem register_duplicate_email (hash1 hash2 : String → String)
    (tok1 tok2 : String) (ok2 : Bool) (st st1 : Store) (c1 c2 : Candidate)
    (e : String)
    (he1 : c1.email = some e) (he2 : c2.email = some e)
    (hv : validate st c1 = [])
    (hst1 : st1 = (register hash1 tok1 true st c1).2.1) :
    (register hash1 tok1 true st c1).1 = .confirmation
    ∧ (register hash2 tok2 ok2 st1 c2).1
        = .validationFailure (validate st1 c2)
    ∧ (validate st1 c2).lookup Field.email = some .EMAIL_INUSE
    ∧ translate "en" (errorKeyMsg .EMAIL_INUSE) = "email in use"
    ∧ (register hash2 tok2 ok2 st1 c2).2.1 = st1
    ∧ st1.countP (fun a => a.email == e) = 1
    ∧ ((register hash2 tok2 ok2 st1 c2).2.1).countP (fun a => a.email == e)
        = 1 := by
  obtain ⟨hU, hE, hP⟩ := (validate_eq_nil_iff st c1).mp hv
  obtain ⟨u, hu⟩ := validateUsername_none_elim hU
  obtain ⟨e2, he2a, hne, hvalid, hfind⟩ := validateEmail_none_elim hE
  obtain ⟨p, hp⟩ := validatePassword_none_elim hP
  rw [he1] at he2a
  injection he2a with he2a
  subst he2a
  have hreg1 := register_success_eq hash1 tok1 st c1 u e p hu he1 hp hv
  have hst1eq : st1 = st ++ [mkAccount hash1 tok1 u e p] := by
    rw [hst1, hreg1]
  have hcount0 : st.countP (fun a => a.email == e) = 0 := countP_email_eq_zero hfind
  have hcount1 : st1.countP (fun a => a.email == e) = 1 := by
    rw [hst1eq, List.countP_append, hcount0,
      List.countP_cons_of_pos _ _ (by simp [mkAccount]), List.countP_nil]
  have hsome : (findByEmail st1 e).isSome = true :=
    findByEmail_isSome_of_countP hcount1
  have hEmail2 : validateEmail st1 c2.email = some .EMAIL_INUSE := by
    rw [he2]
    exact validateEmail_inuse hne hvalid hsome
  have hlookup : (validate st1 c2).lookup Field.email = some .EMAIL_INUSE := by
    rw [validate_lookup]
    simpa [fieldError] using hEmail2
  have hnenil : validate st1 c2 ≠ [] := by
    intro hnil
    obtain ⟨_, hE2, _⟩ := (validate_eq_nil_iff st1 c2).mp hnil
    simp [hE2] at hEmail2
  have hreg2 := register_invalid_eq hash2 tok2 ok2 st1 c2 hnenil
  refine ⟨by rw [hreg1], by rw [hreg2], hlookup, rfl, by rw [hreg2], hcount1, ?_⟩
  rw [hreg2]
  exact hcount1

/-- C3 witness: registering the valid test candidate twice against the
initially empty store. -/
theorem register_duplicate_email_witness :
    (register hasherW "tok1" true [] validUser).1 = RegisterResult.confirmation
    ∧ (register hasherW "tok2" true storeW validUser).1
        = RegisterResult.validationFailure (validate storeW validUser)
    ∧ (validate storeW validUser).lookup Field.email
        = some ErrorKey.EMAIL_INUSE
    ∧ translate "en" (errorKeyMsg .EMAIL_INUSE) = "email in use"
    ∧ (register hasherW "tok2" true storeW validUser).2.1 = storeW
    ∧ storeW.countP (fun a => a.email == "user1@gmail.com") = 1
    ∧ ((register hasherW "tok2" true storeW validUser).2.1).countP
        (fun a => a.email == "user1@gmail.com") = 1 :=
  register_duplicate_email hasherW hasherW "tok1" "tok2" true [] storeW
    validUser validUser "user1@gmail.com" rfl rfl (by decide) rfl

end NodeTdd
